import Mathlib

/-!
Shallow embedding of the quiz-submission workflow of QuizCraft's
`backend/routes/history.js`: the grading loop and persistence of
`POST /api/history` (lines 171-232) and the explanation-lock computation of
`GET /api/history/:id` (lines 104-160).

Modelling conventions.  A JavaScript value that may be `undefined` is an
`Option`: `none` stands for `undefined`, and for a numeric field it also
stands for the `NaN` that `Number(...)` yields on a non-finite input and that
`0 / 0` produces.  JS strict equality `===` between two possibly-undefined
strings is `strictEq`.  JS numbers are modelled as `ℚ` (the computations in
this route are exact on the rationals); `Nat` is used where the source only
ever holds non-negative integers (counts, points).
-/

/-- JS strict equality on possibly-undefined strings: `undefined === undefined`
is `true`, `undefined === "s"` is `false`, two strings compare by content. -/
def strictEq : Option String → Option String → Bool
  | some a, some b => a == b
  | none, none => true
  | _, _ => false

/-- An entry of `question.options`: text plus the `isCorrect` flag. -/
structure QOption where
  text : String
  isCorrect : Bool
  deriving DecidableEq

/-- A quiz question as read by the grading loop: `type`, `options` (used for
mcq), `correctAnswer` (possibly absent), `points`, `explanation`; `qid` models
`question._id`. -/
structure Question where
  qid : Nat
  qtype : String
  options : List QOption
  correctAnswer : Option String
  points : Nat
  explanation : Option String
  deriving DecidableEq

/-- Per-question correctness, history.js lines 184-192: mcq compares the
answer with `===` against `find(o => o.isCorrect)?.text`; true-false compares
`===` against `correctAnswer`; every other type lower-cases and trims both
sides (optional chaining keeps `undefined` as `undefined`). -/
def gradeOne (question : Question) (userAnswer : Option String) : Bool :=
  if question.qtype = "mcq" then
    strictEq userAnswer ((question.options.find? (fun o => o.isCorrect)).map (fun o => o.text))
  else if question.qtype = "true-false" then
    strictEq userAnswer question.correctAnswer
  else
    strictEq (userAnswer.map (fun s => s.toLower.trim))
      (question.correctAnswer.map (fun s => s.toLower.trim))

/-- `answers?.[index]` (line 183): out-of-range positions and explicit
`undefined` entries both read as `undefined`. -/
def answerAt (answers : List (Option String)) (i : Nat) : Option String :=
  match answers.get? i with
  | some a => a
  | none => none

/-- One entry of the `detailedAnswers` array built at lines 194-201. -/
structure DetailedAnswer where
  questionId : Nat
  userAnswer : Option String
  isCorrect : Bool
  pointsEarned : Nat
  correctAnswer : Option String
  explanation : Option String
  deriving DecidableEq

/-- The grading loop of lines 178-202 (`quiz.questions.forEach`), indexing the
fixed `answers` array from `index`; returns
`(correctAnswers, score, detailedAnswers)`. -/
def gradeList : List Question → List (Option String) → Nat → Nat × Nat × List DetailedAnswer
  | [], _, _ => (0, 0, [])
  | question :: rest, answers, index =>
    let userAnswer := answerAt answers index
    let isCorrect := gradeOne question userAnswer
    let tail := gradeList rest answers (index + 1)
    (tail.1 + (if isCorrect then 1 else 0),
     tail.2.1 + (if isCorrect then question.points else 0),
     { questionId := question.qid, userAnswer := userAnswer, isCorrect := isCorrect,
       pointsEarned := if isCorrect then question.points else 0,
       correctAnswer := question.correctAnswer,
       explanation := question.explanation } :: tail.2.2)

/-- `(correctAnswers / quiz.questions.length) * 100` (line 204); `none` models
the `NaN` that JS produces from `0 / 0` on an empty question list. -/
def percentageOf (correct n : Nat) : Option ℚ :=
  if n = 0 then none else some ((correct : ℚ) / (n : ℚ) * 100)

/-- `percentage >= quiz.passingScore` (line 205); a NaN percentage compares
false. -/
def passedOf (percentage : Option ℚ) (passingScore : ℚ) : Bool :=
  match percentage with
  | some p => decide (passingScore ≤ p)
  | none => false

/-- The quiz's embedded analytics aggregate; `averageScore = none` models NaN. -/
structure Analytics where
  totalAttempts : Nat
  averageScore : Option ℚ
  deriving DecidableEq

/-- Lines 223-224: `totalAttempts += 1` and then
`averageScore = (averageScore * (totalAttempts - 1) + percentage) / totalAttempts`
with `totalAttempts` already holding the new count; any NaN operand
(NaN percentage or NaN stored average) poisons the result to NaN. -/
def updateAnalytics (a : Analytics) (percentage : Option ℚ) : Analytics :=
  let n := a.totalAttempts + 1
  { totalAttempts := n,
    averageScore :=
      match a.averageScore, percentage with
      | some avg, some p => some ((avg * ((n : ℚ) - 1) + p) / (n : ℚ))
      | _, _ => none }

/-- A quiz document as used by this route: questions, `passingScore`,
`timeLimit` (minutes, possibly absent), embedded analytics; `qid` models
`quiz._id`. -/
structure Quiz where
  qid : Nat
  questions : List Question
  passingScore : ℚ
  timeLimit : Option ℚ
  analytics : Analytics
  deriving DecidableEq

/-- The user fields touched by the route: `points`, `usage.quizzesTaken`,
`usage.lastQuizDate` (a timestamp in milliseconds). -/
structure UserStats where
  points : Nat
  quizzesTaken : Nat
  lastQuizDate : Option ℚ
  deriving DecidableEq

/-- Modelled from the spec: `req.user.incrementUsage('taken')` (line 220; the
User model file is not among the sources) — per §4.2 step 3b it increments
`quizzesTaken` by 1 and sets `lastQuizDate` to the current time. -/
def incrementUsageTaken (u : UserStats) (now : ℚ) : UserStats :=
  { u with quizzesTaken := u.quizzesTaken + 1, lastQuizDate := some now }

/-- A persisted QuizHistory document (lines 207-218); `completedAt` is the
creation timestamp in milliseconds. -/
structure HistoryRecord where
  user : Nat
  quiz : Nat
  answers : List DetailedAnswer
  score : Nat
  percentage : Option ℚ
  totalQuestions : Nat
  correctAnswers : Nat
  incorrectAnswers : Nat
  timeTaken : Option ℚ
  passed : Bool
  completedAt : ℚ
  deriving DecidableEq

/-- Outcome of `POST /api/history`: 404 quiz-not-found, the generic 500 of the
catch block ("Failed to save history"), or 201 created whose `data` object
carries exactly the listed keys.  The route has no validation branch, so no
validation outcome exists. -/
inductive PostResult where
  | notFound
  | serverError
  | created (respDataKeys : List String)
  deriving DecidableEq

/-- The storage state the POST route touches: the history collection, the
requesting user, and the quiz looked up by `Quiz.findById` (`none` when
absent). -/
structure SubmitState where
  histories : List HistoryRecord
  user : UserStats
  quiz : Option Quiz
  deriving DecidableEq

/-- `POST /api/history` (lines 171-232).  The route opens no
transaction/session: each `await` applies durably in order — history insert
(line 207), user-stats update (lines 220-221), quiz-analytics update (lines
223-225).  `failUserSave` injects a thrown error from the user-stats
persistence await; the catch block (lines 228-231) then answers the generic
500 and rolls nothing back.  The 201 response's `data` object is
`{ historyId: history._id }` (line 227), a single key. -/
def postHistory (s : SubmitState) (userId : Nat) (answers : List (Option String))
    (timeTaken : Option ℚ) (now : ℚ) (failUserSave : Bool) : SubmitState × PostResult :=
  match s.quiz with
  | none => (s, PostResult.notFound)
  | some quiz =>
    let graded := gradeList quiz.questions answers 0
    let correctAnswers := graded.1
    let score := graded.2.1
    let detailedAnswers := graded.2.2
    let percentage := percentageOf correctAnswers quiz.questions.length
    let passed := passedOf percentage quiz.passingScore
    let record : HistoryRecord :=
      { user := userId, quiz := quiz.qid, answers := detailedAnswers, score := score,
        percentage := percentage, totalQuestions := quiz.questions.length,
        correctAnswers := correctAnswers,
        incorrectAnswers := quiz.questions.length - correctAnswers,
        timeTaken := timeTaken, passed := passed, completedAt := now }
    let s1 : SubmitState := { s with histories := s.histories ++ [record] }
    if failUserSave then (s1, PostResult.serverError)
    else
      let user1 := incrementUsageTaken s1.user now
      let user2 : UserStats := { user1 with points := user1.points + score }
      let s2 : SubmitState := { s1 with user := user2 }
      let quiz2 : Quiz := { quiz with analytics := updateAnalytics quiz.analytics percentage }
      let s3 : SubmitState := { s2 with quiz := some quiz2 }
      (s3, PostResult.created ["historyId"])

/-- The explanation-lock computation of `GET /api/history/:id` (lines
104-150): with the populated quiz present, when `timeLimit` and `timeTaken`
are finite with `timeLimit > 0` and `timeTaken >= 0`, the remaining time
`timeLimit * 60 - timeTaken` locks explanations while positive, unlocking at
`completedAt + remaining * 1000` milliseconds; in every other case
explanations are viewable and the unlock time is null. -/
def explanationVisibility (quiz : Option Quiz) (timeTaken : Option ℚ)
    (completedAt : ℚ) : Bool × Option ℚ :=
  match quiz with
  | none => (true, none)
  | some q =>
    match q.timeLimit, timeTaken with
    | some tl, some tt =>
      if 0 < tl ∧ 0 ≤ tt then
        let remainingSeconds := tl * 60 - tt
        if 0 < remainingSeconds then
          (false, some (completedAt + remainingSeconds * 1000))
        else (true, none)
      else (true, none)
    | _, _ => (true, none)

/-- The object returned by `GET /api/history/:id`: the record's data plus the
two computed fields set on `historyObj` (lines 152-153). -/
structure HistoryDetailView where
  record : HistoryRecord
  canViewExplanations : Bool
  explanationsUnlockAt : Option ℚ
  deriving DecidableEq

/-- `GET /api/history/:id` core (lines 104-160): computes the two
explanation fields on a copy of the record (`history.toObject`) and responds;
the handler never saves, so the first component — the persisted record — is
returned unchanged. -/
def getHistoryDetail (record : HistoryRecord) (quiz : Option Quiz) :
    HistoryRecord × HistoryDetailView :=
  let fields := explanationVisibility quiz record.timeTaken record.completedAt
  (record,
   { record := record, canViewExplanations := fields.1,
     explanationsUnlockAt := fields.2 })

/-- A concurrent submission's interaction with the shared quiz document,
as two atomic storage events taken from the route: the read models
`Quiz.findById` at line 174 (the whole document, analytics included, is
loaded into `quiz`), the write models `quiz.save()` at line 225 (the
analytics computed from the task's own loaded snapshot overwrite the shared
document).  `pc = 0`: read pending; `pc = 1`: write pending; `pc = 2`: done. -/
structure SubmitTask where
  percentage : ℚ
  pc : Nat
  snapshot : Analytics
  deriving DecidableEq

/-- Shared quiz analytics plus the per-task states of the in-flight
submissions. -/
structure ConcState where
  shared : Analytics
  tasks : List SubmitTask
  deriving DecidableEq

/-- Run the next pending storage event of task `i`: a read captures the
shared analytics into the task's snapshot; a write stores
`updateAnalytics snapshot percentage` (lines 223-225 computed on the
task's own loaded copy) into the shared document. -/
def stepTask (s : ConcState) (i : Nat) : ConcState :=
  match s.tasks.get? i with
  | none => s
  | some t =>
    if t.pc = 0 then
      { s with tasks := s.tasks.set i { t with pc := 1, snapshot := s.shared } }
    else if t.pc = 1 then
      { shared := updateAnalytics t.snapshot (some t.percentage),
        tasks := s.tasks.set i { t with pc := 2 } }
    else s

/-- Execute a schedule: an interleaving of the tasks' storage events, given
as the sequence of task indices that act next. -/
def runSchedule (s : ConcState) : List Nat → ConcState
  | [] => s
  | i :: rest => runSchedule (stepTask s i) rest

/-- Modelled from the spec: the per-type correctness policy exactly as the
claim words it — for `mcq`, correct iff the answer equals the text of the
first option whose `isCorrect` flag is set (so an mcq with no flagged option
admits no correct answer); for `true-false`, exact equality with
`correctAnswer`; otherwise lower-cased trimmed equality. -/
def claimCorrect (q : Question) (ua : Option String) : Prop :=
  if q.qtype = "mcq" then
    ∃ o, q.options.find? (fun x => x.isCorrect) = some o ∧ ua = some o.text
  else if q.qtype = "true-false" then
    ua = q.correctAnswer
  else
    ua.map (fun s => s.toLower.trim) = q.correctAnswer.map (fun s => s.toLower.trim)

/-- Modelled from the spec, amended after the mcq counterexample: for `mcq`
the answer is compared with JS strict equality against the *optional* text of
the first flagged option — `undefined` when no option is flagged, so a
missing answer then counts as correct; the other two types read as in the
claim. -/
def amendedCorrect (q : Question) (ua : Option String) : Prop :=
  if q.qtype = "mcq" then
    ua = (q.options.find? (fun x => x.isCorrect)).map (fun o => o.text)
  else if q.qtype = "true-false" then
    ua = q.correctAnswer
  else
    ua.map (fun s => s.toLower.trim) = q.correctAnswer.map (fun s => s.toLower.trim)

/-- Modelled from the spec: refinement target for the explanation-lock
claim — explanations are locked iff the quiz is present, its `timeLimit` is a
finite number `> 0`, the attempt's `timeTaken` is a finite number `>= 0`, and
`timeLimit * 60 - timeTaken > 0`; when locked, the unlock instant is
`completedAt` plus the remaining seconds; otherwise viewable with null unlock
time. -/
def specExplanationFields (quiz : Option Quiz) (timeTaken : Option ℚ)
    (completedAt : ℚ) : Bool × Option ℚ :=
  match quiz with
  | none => (true, none)
  | some q =>
    match q.timeLimit, timeTaken with
    | some tl, some tt =>
      if 0 < tl ∧ 0 ≤ tt ∧ 0 < tl * 60 - tt then
        (false, some (completedAt + (tl * 60 - tt) * 1000))
      else (true, none)
    | _, _ => (true, none)

/-- The keys of the `data` object of a 201 response (empty for the other
outcomes). -/
def respKeys : PostResult → List String
  | PostResult.created ks => ks
  | _ => []

/-- A sample true-false question. -/
def exTrueFalseQ : Question :=
  { qid := 1, qtype := "true-false", options := [], correctAnswer := some "true",
    points := 5, explanation := none }

/-- A sample one-question quiz with fresh analytics. -/
def exQuiz1 : Quiz :=
  { qid := 10, questions := [exTrueFalseQ], passingScore := 50, timeLimit := some 10,
    analytics := { totalAttempts := 0, averageScore := some 0 } }

/-- A fresh user. -/
def exUser : UserStats := { points := 0, quizzesTaken := 0, lastQuizDate := none }

/-- Initial storage state holding `exQuiz1`. -/
def exState1 : SubmitState := { histories := [], user := exUser, quiz := some exQuiz1 }

/-- A quiz whose question list is empty. -/
def emptyQuiz : Quiz :=
  { qid := 20, questions := [], passingScore := 70, timeLimit := none,
    analytics := { totalAttempts := 0, averageScore := some 0 } }

/-- Initial storage state holding `emptyQuiz`. -/
def exState5 : SubmitState := { histories := [], user := exUser, quiz := some emptyQuiz }

/-- A sample quiz for exercising the success response. -/
def exQuiz8 : Quiz :=
  { qid := 30, questions := [exTrueFalseQ], passingScore := 50, timeLimit := none,
    analytics := { totalAttempts := 0, averageScore := some 0 } }

/-- Initial storage state holding `exQuiz8`. -/
def exState8 : SubmitState := { histories := [], user := exUser, quiz := some exQuiz8 }

/-- An mcq question none of whose options is flagged `isCorrect`. -/
def exMcqNoFlag : Question :=
  { qid := 11, qtype := "mcq", options := [{ text := "A", isCorrect := false }],
    correctAnswer := none, points := 3, explanation := none }

/-- A two-option mcq question with no flagged option. -/
def exMcqTwoNoFlag : Question :=
  { qid := 12, qtype := "mcq",
    options := [{ text := "yes", isCorrect := false }, { text := "no", isCorrect := false }],
    correctAnswer := none, points := 2, explanation := none }

/-- Two concurrent submissions (percentages 100 and 0) against a quiz whose
analytics start at zero attempts, both still to perform their read. -/
def raceInit : ConcState :=
  { shared := { totalAttempts := 0, averageScore := some 0 },
    tasks := [{ percentage := 100, pc := 0,
                snapshot := { totalAttempts := 0, averageScore := some 0 } },
              { percentage := 0, pc := 0,
                snapshot := { totalAttempts := 0, averageScore := some 0 } }] }

/-- Scenario question 1: an mcq worth 10 points whose flagged option is "A". -/
def scenarioQ1 : Question :=
  { qid := 41, qtype := "mcq",
    options := [{ text := "A", isCorrect := true }, { text := "B", isCorrect := false }],
    correctAnswer := none, points := 10, explanation := none }

/-- Scenario question 2: a true-false question worth 5 points. -/
def scenarioQ2 : Question :=
  { qid := 42, qtype := "true-false", options := [], correctAnswer := some "true",
    points := 5, explanation := none }

/-- The spec's scenario quiz: 2 questions with weights 10 and 5,
`passingScore` 60. -/
def scenarioQuiz : Quiz :=
  { qid := 40, questions := [scenarioQ1, scenarioQ2], passingScore := 60, timeLimit := none,
    analytics := { totalAttempts := 0, averageScore := some 0 } }

/-- C1: the submission's side effects are NOT all-or-nothing.  Evaluating the
route at a concrete submission where the user-stats save throws after the
history insert: the caller gets the generic 500, the user stats and quiz
analytics are unchanged, but the inserted HistoryRecord from this submission
remains visible — `history.js` opens no transaction and rolls nothing back,
contradicting the all-rolled-back clause of the claim. -/
theorem postHistory_no_rollback_on_user_save_failure :
    (postHistory exState1 7 [some "true"] (some 30) 1000 true).2 = PostResult.serverError
    ∧ (postHistory exState1 7 [some "true"] (some 30) 1000 true).1.histories ≠ []
    ∧ (postHistory exState1 7 [some "true"] (some 30) 1000 true).1.histories.length = 1
    ∧ (postHistory exState1 7 [some "true"] (some 30) 1000 true).1.user = exUser
    ∧ (postHistory exState1 7 [some "true"] (some 30) 1000 true).1.quiz = some exQuiz1 := by
  decide

/-- C5: submitting against a quiz with an empty question list is NOT rejected
with a validation error — the route has no such branch.  The attempt is
created with `percentage = NaN` (the `0 / 0` of line 204, modelled `none`),
`passed = false`, and the quiz's `averageScore` is poisoned to NaN by the
incremental-mean formula. -/
theorem postHistory_empty_quiz_yields_nan :
    (postHistory exState5 7 [] (some 0) 1000 false).2 = PostResult.created ["historyId"]
    ∧ (postHistory exState5 7 [] (some 0) 1000 false).1.histories =
        [{ user := 7, quiz := 20, answers := [], score := 0, percentage := none,
           totalQuestions := 0, correctAnswers := 0, incorrectAnswers := 0,
           timeTaken := some 0, passed := false, completedAt := 1000 }]
    ∧ (postHistory exState5 7 [] (some 0) 1000 false).1.quiz =
        some { emptyQuiz with analytics := { totalAttempts := 1, averageScore := none } } := by
  decide

/-- C7: the quiz-analytics update races.  Under the interleaving in which both
submissions load the quiz (line 174) before either saves it (line 225), one
update is lost: final `totalAttempts` is 1, not 2, and `averageScore` is the
last writer's percentage, not the mean 50.  The serialized schedule, by
contrast, yields the claimed 2 and 50 — the loss is due to the
read-increment-write race, not to the formula. -/
theorem lost_update_on_concurrent_submissions :
    (runSchedule raceInit [0, 1, 0, 1]).shared =
      { totalAttempts := 1, averageScore := some 0 }
    ∧ (runSchedule raceInit [0, 0, 1, 1]).shared =
      { totalAttempts := 2, averageScore := some 50 } := by
  constructor <;>
    · simp only [raceInit, runSchedule, stepTask, updateAnalytics, List.get?, List.set,
        Nat.zero_add]
      norm_num

/-- C8 counterexample: a concrete successful submission answers 201 with a
`data` object holding exactly the key `historyId`; contrary to the claim,
`score`, `percentage` and `passed` are not in the response. -/
theorem response_data_lacks_score_cex :
    (postHistory exState8 9 [some "true"] (some 12) 2000 false).2 =
      PostResult.created ["historyId"]
    ∧ respKeys (postHistory exState8 9 [some "true"] (some 12) 2000 false).2 = ["historyId"]
    ∧ ¬ "score" ∈ respKeys (postHistory exState8 9 [some "true"] (some 12) 2000 false).2
    ∧ ¬ "percentage" ∈ respKeys (postHistory exState8 9 [some "true"] (some 12) 2000 false).2
    ∧ ¬ "passed" ∈ respKeys (postHistory exState8 9 [some "true"] (some 12) 2000 false).2 := by
  decide

/-- C2 counterexample: for an mcq question none of whose options is flagged
`isCorrect`, a missing answer is graded CORRECT by the code
(`undefined === find(...)?.text` is `undefined === undefined`), while the
claim's reading — the answer must equal the text of the first flagged
option — admits no correct answer at all for such a question. -/
theorem mcq_missing_answer_graded_correct_cex :
    gradeOne exMcqNoFlag none = true ∧ ¬ claimCorrect exMcqNoFlag none := by
  constructor
  · decide
  · intro h
    rw [claimCorrect] at h
    rw [if_pos (show exMcqNoFlag.qtype = "mcq" from rfl)] at h
    obtain ⟨o, ho, _⟩ := h
    have hf : exMcqNoFlag.options.find? (fun x => x.isCorrect) = none := by decide
    rw [hf] at ho
    cases ho

/-- C4 counterexample: a quiz whose single question is an mcq with no flagged
option, graded against an empty (hence everywhere-missing) answer set: the
missing answer at position 0 is graded correct, not incorrect — the code
counts it (`correctAnswers = 1`) and awards its points. -/
theorem missing_answer_not_incorrect_cex :
    answerAt [] 0 = none
    ∧ gradeOne exMcqTwoNoFlag (answerAt [] 0) = true
    ∧ (gradeList [exMcqTwoNoFlag] [] 0).1 = 1
    ∧ (gradeList [exMcqTwoNoFlag] [] 0).2.1 = 2 := by
  decide

/-- JS strict equality on optional strings coincides with propositional
equality of the `Option` values. -/
theorem strictEq_true_iff (a b : Option String) : strictEq a b = true ↔ a = b := by
  cases a <;> cases b <;> simp [strictEq]

/-- C2 amended: per-question correctness holds exactly per question type,
with the mcq clause read as JS strict equality against the *optional* text of
the first flagged option (`undefined` when none is flagged); the true-false
and short-answer clauses are as the claim states them. -/
theorem gradeOne_amended_characterization (q : Question) (ua : Option String) :
    gradeOne q ua = true ↔ amendedCorrect q ua := by
  rw [gradeOne, amendedCorrect]
  split_ifs <;> exact strictEq_true_iff _ _

/-- C4 amended: grading is total (`answerAt` reads every out-of-range
position as `undefined`, never failing), and a missing answer is graded
incorrect whenever the question's comparison target is defined — for mcq,
some option is flagged `isCorrect`; for the other types, `correctAnswer` is
present.  (When the target is itself `undefined`, as in the counterexample,
`undefined === undefined` grades the missing answer correct.) -/
theorem missing_answer_graded_incorrect (q : Question)
    (h : (q.qtype = "mcq" → ∃ o, q.options.find? (fun x => x.isCorrect) = some o)
         ∧ (q.qtype ≠ "mcq" → q.correctAnswer ≠ none)) :
    gradeOne q none = false
    ∧ ∀ (answers : List (Option String)) (i : Nat),
        answers.length ≤ i → answerAt answers i = none := by
  constructor
  · rw [gradeOne]
    by_cases hm : q.qtype = "mcq"
    · rw [if_pos hm]
      obtain ⟨o, ho⟩ := h.1 hm
      rw [ho]
      rfl
    · rw [if_neg hm]
      obtain ⟨a, ha⟩ := Option.ne_none_iff_exists'.mp (h.2 hm)
      by_cases ht : q.qtype = "true-false"
      · rw [if_pos ht, ha]
        rfl
      · rw [if_neg ht, ha]
        rfl
  · intro answers i hi
    rw [answerAt, List.get?_eq_none.mpr hi]

/-- Witness for the amended C4 theorem at a concrete true-false question with
a present `correctAnswer`: the hypothesis holds and a missing answer is
graded incorrect. -/
theorem missing_answer_graded_incorrect_witness :
    ((exTrueFalseQ.qtype = "mcq" →
        ∃ o, exTrueFalseQ.options.find? (fun x => x.isCorrect) = some o)
      ∧ (exTrueFalseQ.qtype ≠ "mcq" → exTrueFalseQ.correctAnswer ≠ none))
    ∧ gradeOne exTrueFalseQ none = false
    ∧ answerAt [some "true"] 3 = none := by
  have hyp : (exTrueFalseQ.qtype = "mcq" →
        ∃ o, exTrueFalseQ.options.find? (fun x => x.isCorrect) = some o)
      ∧ (exTrueFalseQ.qtype ≠ "mcq" → exTrueFalseQ.correctAnswer ≠ none) :=
    ⟨fun hm => absurd hm (by decide), fun _ => by decide⟩
  exact ⟨hyp, (missing_answer_graded_incorrect exTrueFalseQ hyp).1,
    (missing_answer_graded_incorrect exTrueFalseQ hyp).2 [some "true"] 3 (by decide)⟩

/-- The detailed-answers list has exactly one entry per question. -/
theorem gradeList_detailed_length (qs : List Question) (answers : List (Option String)) :
    ∀ k, (gradeList qs answers k).2.2.length = qs.length := by
  induction qs with
  | nil => intro k; rfl
  | cons q rest ih => intro k; simp [gradeList, ih (k + 1)]

/-- The correct-answer count never exceeds the number of questions. -/
theorem gradeList_correct_le (qs : List Question) (answers : List (Option String)) :
    ∀ k, (gradeList qs answers k).1 ≤ qs.length := by
  induction qs with
  | nil => intro k; simp [gradeList]
  | cons q rest ih =>
    intro k
    simp only [gradeList, List.length_cons]
    have := ih (k + 1)
    split <;> omega

/-- The accumulated score is the sum of `pointsEarned` over the detailed
entries. -/
theorem gradeList_score_eq_sum (qs : List Question) (answers : List (Option String)) :
    ∀ k, (gradeList qs answers k).2.1 =
      ((gradeList qs answers k).2.2.map (fun d => d.pointsEarned)).sum := by
  induction qs with
  | nil => intro k; rfl
  | cons q rest ih =>
    intro k
    simp only [gradeList, List.map_cons, List.sum_cons]
    rw [ih (k + 1)]
    omega

/-- The detailed entry at position `i` is built from question `i` and the
candidate answer at the same array position. -/
theorem gradeList_detailed_get (answers : List (Option String)) :
    ∀ (qs : List Question) (k i : Nat) (q : Question), qs.get? i = some q →
      (gradeList qs answers k).2.2.get? i = some
        { questionId := q.qid, userAnswer := answerAt answers (k + i),
          isCorrect := gradeOne q (answerAt answers (k + i)),
          pointsEarned := if gradeOne q (answerAt answers (k + i)) then q.points else 0,
          correctAnswer := q.correctAnswer, explanation := q.explanation } := by
  intro qs
  induction qs with
  | nil => intro k i q h; cases h
  | cons q0 rest ih =>
    intro k i q h
    cases i with
    | zero =>
      rw [List.get?_cons_zero] at h
      injection h with h
      subst h
      simp [gradeList]
    | succ j =>
      rw [List.get?_cons_succ] at h
      have hk : k + (j + 1) = k + 1 + j := by omega
      rw [hk]
      exact ih (k + 1) j q h

/-- Score and correct-count of the grading loop, expressed over the
index-paired question list: the score sums the points of the correctly
answered questions, the count is the number of correctly answered ones. -/
theorem gradeList_score_count_enumFrom (answers : List (Option String)) :
    ∀ (qs : List Question) (k : Nat),
      (gradeList qs answers k).2.1 =
        (((List.enumFrom k qs).filter (fun p => gradeOne p.2 (answerAt answers p.1))).map
          (fun p => p.2.points)).sum
      ∧ (gradeList qs answers k).1 =
        ((List.enumFrom k qs).filter (fun p => gradeOne p.2 (answerAt answers p.1))).length := by
  intro qs
  induction qs with
  | nil => intro k; exact ⟨rfl, rfl⟩
  | cons q rest ih =>
    intro k
    obtain ⟨ihs, ihc⟩ := ih (k + 1)
    simp only [gradeList, List.enumFrom, List.filter_cons]
    by_cases hc : gradeOne q (answerAt answers k) = true
    · simp [hc, ihs, ihc]
      omega
    · simp [hc, ihs, ihc]

/-- C3: for a quiz with at least one question, grading yields a score equal
to the sum of the points of the correctly answered questions, a percentage of
(correct count / question count) * 100 — a fraction of the correct-answer
count, not weighted by points — and passed exactly when the percentage
reaches `passingScore`. -/
theorem grade_score_percentage_passed (quiz : Quiz) (answers : List (Option String))
    (h : quiz.questions.length ≠ 0) :
    (gradeList quiz.questions answers 0).2.1 =
      (((List.enumFrom 0 quiz.questions).filter
          (fun p => gradeOne p.2 (answerAt answers p.1))).map (fun p => p.2.points)).sum
    ∧ (gradeList quiz.questions answers 0).1 =
      ((List.enumFrom 0 quiz.questions).filter
          (fun p => gradeOne p.2 (answerAt answers p.1))).length
    ∧ percentageOf (gradeList quiz.questions answers 0).1 quiz.questions.length =
      some (((gradeList quiz.questions answers 0).1 : ℚ) / (quiz.questions.length : ℚ) * 100)
    ∧ passedOf (percentageOf (gradeList quiz.questions answers 0).1 quiz.questions.length)
        quiz.passingScore =
      decide (quiz.passingScore ≤
        ((gradeList quiz.questions answers 0).1 : ℚ) / (quiz.questions.length : ℚ) * 100) := by
  obtain ⟨hs, hc⟩ := gradeList_score_count_enumFrom answers quiz.questions 0
  have hp : percentageOf (gradeList quiz.questions answers 0).1 quiz.questions.length =
      some (((gradeList quiz.questions answers 0).1 : ℚ) /
        (quiz.questions.length : ℚ) * 100) := by
    rw [percentageOf, if_neg h]
  refine ⟨hs, hc, hp, ?_⟩
  rw [hp]
  rfl

/-- Witness for C3 at the spec's scenario: 2 questions of weights 10 and 5,
passing score 60, question 1 (mcq) answered correctly, question 2
incorrectly: score 10, percentage 50, not passed. -/
theorem grade_score_percentage_passed_witness :
    scenarioQuiz.questions.length ≠ 0
    ∧ ((gradeList scenarioQuiz.questions [some "A", some "false"] 0).2.1 =
        (((List.enumFrom 0 scenarioQuiz.questions).filter
            (fun p => gradeOne p.2 (answerAt [some "A", some "false"] p.1))).map
          (fun p => p.2.points)).sum
      ∧ (gradeList scenarioQuiz.questions [some "A", some "false"] 0).1 =
        ((List.enumFrom 0 scenarioQuiz.questions).filter
            (fun p => gradeOne p.2 (answerAt [some "A", some "false"] p.1))).length
      ∧ percentageOf (gradeList scenarioQuiz.questions [some "A", some "false"] 0).1
          scenarioQuiz.questions.length =
        some (((gradeList scenarioQuiz.questions [some "A", some "false"] 0).1 : ℚ) /
          (scenarioQuiz.questions.length : ℚ) * 100)
      ∧ passedOf
          (percentageOf (gradeList scenarioQuiz.questions [some "A", some "false"] 0).1
            scenarioQuiz.questions.length) scenarioQuiz.passingScore =
        decide (scenarioQuiz.passingScore ≤
          ((gradeList scenarioQuiz.questions [some "A", some "false"] 0).1 : ℚ) /
            (scenarioQuiz.questions.length : ℚ) * 100))
    ∧ (gradeList scenarioQuiz.questions [some "A", some "false"] 0).2.1 = 10
    ∧ percentageOf (gradeList scenarioQuiz.questions [some "A", some "false"] 0).1
        scenarioQuiz.questions.length = some 50
    ∧ passedOf
        (percentageOf (gradeList scenarioQuiz.questions [some "A", some "false"] 0).1
          scenarioQuiz.questions.length) scenarioQuiz.passingScore = false := by
  have hyp : scenarioQuiz.questions.length ≠ 0 := by decide
  have hcc : (gradeList scenarioQuiz.questions [some "A", some "false"] 0).1 = 1 := by decide
  have hsc : (gradeList scenarioQuiz.questions [some "A", some "false"] 0).2.1 = 10 := by decide
  have hlen : scenarioQuiz.questions.length = 2 := by decide
  have hp : percentageOf (gradeList scenarioQuiz.questions [some "A", some "false"] 0).1
      scenarioQuiz.questions.length = some 50 := by
    rw [hcc, hlen, percentageOf]
    norm_num
  have hpass : passedOf
      (percentageOf (gradeList scenarioQuiz.questions [some "A", some "false"] 0).1
        scenarioQuiz.questions.length) scenarioQuiz.passingScore = false := by
    rw [hp]
    show decide ((60 : ℚ) ≤ 50) = false
    exact decide_eq_false (by norm_num)
  exact ⟨hyp, grade_score_percentage_passed scenarioQuiz [some "A", some "false"] hyp,
    hsc, hp, hpass⟩

/-- C10: the HistoryRecord created by a successful submission is internally
consistent: one breakdown entry per question in question order, each entry's
`pointsEarned` is the question's points when correct and 0 otherwise,
`correctAnswers + incorrectAnswers = totalQuestions` = number of questions,
and the stored score is the sum of `pointsEarned` over the breakdown. -/
theorem submission_record_consistent (s : SubmitState) (userId : Nat)
    (answers : List (Option String)) (timeTaken : Option ℚ) (now : ℚ) (quiz : Quiz)
    (hq : s.quiz = some quiz) :
    ∃ record : HistoryRecord,
      (postHistory s userId answers timeTaken now false).1.histories =
        s.histories ++ [record]
      ∧ record.answers.length = quiz.questions.length
      ∧ (∀ (i : Nat) (q : Question), quiz.questions.get? i = some q →
          record.answers.get? i = some
            { questionId := q.qid, userAnswer := answerAt answers i,
              isCorrect := gradeOne q (answerAt answers i),
              pointsEarned := if gradeOne q (answerAt answers i) then q.points else 0,
              correctAnswer := q.correctAnswer, explanation := q.explanation })
      ∧ record.correctAnswers + record.incorrectAnswers = record.totalQuestions
      ∧ record.totalQuestions = quiz.questions.length
      ∧ record.score = (record.answers.map (fun d => d.pointsEarned)).sum := by
  refine ⟨{ user := userId, quiz := quiz.qid,
            answers := (gradeList quiz.questions answers 0).2.2,
            score := (gradeList quiz.questions answers 0).2.1,
            percentage :=
              percentageOf (gradeList quiz.questions answers 0).1 quiz.questions.length,
            totalQuestions := quiz.questions.length,
            correctAnswers := (gradeList quiz.questions answers 0).1,
            incorrectAnswers :=
              quiz.questions.length - (gradeList quiz.questions answers 0).1,
            timeTaken := timeTaken,
            passed :=
              passedOf (percentageOf (gradeList quiz.questions answers 0).1
                quiz.questions.length) quiz.passingScore,
            completedAt := now }, ?_, ?_, ?_, ?_, ?_, ?_⟩
  · simp [postHistory, hq]
  · exact gradeList_detailed_length quiz.questions answers 0
  · intro i q h
    have hg := gradeList_detailed_get answers quiz.questions 0 i q h
    simpa using hg
  · show (gradeList quiz.questions answers 0).1 +
      (quiz.questions.length - (gradeList quiz.questions answers 0).1) =
      quiz.questions.length
    have hle := gradeList_correct_le quiz.questions answers 0
    omega
  · rfl
  · exact gradeList_score_eq_sum quiz.questions answers 0

/-- Witness for C10 at a concrete submission: a one-question quiz answered
correctly. -/
theorem submission_record_consistent_witness :
    exState1.quiz = some exQuiz1
    ∧ ∃ record : HistoryRecord,
        (postHistory exState1 3 [some "true"] (some 5) 500 false).1.histories =
          exState1.histories ++ [record]
        ∧ record.answers.length = exQuiz1.questions.length
        ∧ (∀ (i : Nat) (q : Question), exQuiz1.questions.get? i = some q →
            record.answers.get? i = some
              { questionId := q.qid, userAnswer := answerAt [some "true"] i,
                isCorrect := gradeOne q (answerAt [some "true"] i),
                pointsEarned :=
                  if gradeOne q (answerAt [some "true"] i) then q.points else 0,
                correctAnswer := q.correctAnswer, explanation := q.explanation })
        ∧ record.correctAnswers + record.incorrectAnswers = record.totalQuestions
        ∧ record.totalQuestions = exQuiz1.questions.length
        ∧ record.score = (record.answers.map (fun d => d.pointsEarned)).sum :=
  ⟨rfl, submission_record_consistent exState1 3 [some "true"] (some 5) 500 exQuiz1 rfl⟩

/-- Folding further submissions into analytics that already hold the exact
mean of `n > 0` earlier samples keeps the running mean exact. -/
theorem foldl_updateAnalytics_mean (ps : List ℚ) :
    ∀ (a : Analytics) (n : Nat) (s : ℚ), 0 < n → a.totalAttempts = n →
      a.averageScore = some s →
      (ps.foldl (fun b p => updateAnalytics b (some p)) a).totalAttempts = n + ps.length
      ∧ (ps.foldl (fun b p => updateAnalytics b (some p)) a).averageScore =
          some ((s * (n : ℚ) + ps.sum) / ((n : ℚ) + (ps.length : ℚ))) := by
  induction ps with
  | nil =>
    intro a n s hn ha hs
    refine ⟨by simpa using ha, ?_⟩
    rw [List.foldl_nil, hs]
    have hn0 : ((n : ℚ)) ≠ 0 := by
      exact_mod_cast Nat.pos_iff_ne_zero.mp hn
    congr 1
    rw [List.sum_nil, List.length_nil]
    push_cast
    field_simp
  | cons p rest ih =>
    intro a n s hn ha hs
    rw [List.foldl_cons]
    have h1 : (updateAnalytics a (some p)).totalAttempts = n + 1 := by
      simp [updateAnalytics, ha]
    have h2 : (updateAnalytics a (some p)).averageScore =
        some ((s * (n : ℚ) + p) / ((n : ℚ) + 1)) := by
      simp only [updateAnalytics, ha, hs]
      congr 1
      push_cast
      ring_nf
    obtain ⟨ht, hv⟩ := ih (updateAnalytics a (some p)) (n + 1)
      ((s * (n : ℚ) + p) / ((n : ℚ) + 1)) (by omega) h1 h2
    have hn1 : ((n : ℚ) + 1) ≠ 0 := by positivity
    refine ⟨by rw [ht]; simp; omega, ?_⟩
    rw [hv]
    congr 1
    rw [List.sum_cons, List.length_cons]
    push_cast
    field_simp
    ring

/-- C6: each successful submission's analytics update increments
`totalAttempts` by exactly 1 and recomputes `averageScore` as
`((old avg * (newCount - 1)) + percentage) / newCount` with `newCount` the
already-incremented count; consequently, after N >= 1 sequential submissions
starting from `totalAttempts = 0`, `averageScore` is the arithmetic mean of
the N submitted percentages. -/
theorem analytics_running_mean (a : Analytics) (s : ℚ) (ps : List ℚ)
    (h0 : a.totalAttempts = 0) (hs : a.averageScore = some s) (hne : ps ≠ []) :
    (ps.foldl (fun b p => updateAnalytics b (some p)) a).totalAttempts = ps.length
    ∧ (ps.foldl (fun b p => updateAnalytics b (some p)) a).averageScore =
        some (ps.sum / (ps.length : ℚ))
    ∧ (∀ (b : Analytics) (p : Option ℚ),
        (updateAnalytics b p).totalAttempts = b.totalAttempts + 1)
    ∧ (∀ (b : Analytics) (bs : ℚ) (p : ℚ), b.averageScore = some bs →
        (updateAnalytics b (some p)).averageScore =
          some ((bs * (((b.totalAttempts + 1 : Nat) : ℚ) - 1) + p) /
            ((b.totalAttempts + 1 : Nat) : ℚ))) := by
  cases ps with
  | nil => exact absurd rfl hne
  | cons p rest =>
    rw [List.foldl_cons]
    have h1 : (updateAnalytics a (some p)).totalAttempts = 1 := by
      simp [updateAnalytics, h0]
    have h2 : (updateAnalytics a (some p)).averageScore = some p := by
      simp only [updateAnalytics, h0, hs]
      norm_num
    obtain ⟨ht, hv⟩ := foldl_updateAnalytics_mean rest (updateAnalytics a (some p)) 1 p
      (by omega) h1 h2
    refine ⟨by rw [ht]; simp [Nat.add_comm], ?_, ?_, ?_⟩
    · rw [hv]
      congr 1
      rw [List.sum_cons, List.length_cons]
      push_cast
      ring
    · intro b q
      rfl
    · intro b bs q hb
      simp [updateAnalytics, hb]

/-- Witness for C6: two sequential submissions with percentages 100 and 0
starting from fresh analytics end with 2 attempts and average 50. -/
theorem analytics_running_mean_witness :
    (({ totalAttempts := 0, averageScore := some 0 } : Analytics).totalAttempts = 0
      ∧ ({ totalAttempts := 0, averageScore := some 0 } : Analytics).averageScore = some 0
      ∧ [(100 : ℚ), 0] ≠ [])
    ∧ ([(100 : ℚ), 0].foldl (fun b p => updateAnalytics b (some p))
        { totalAttempts := 0, averageScore := some 0 }).totalAttempts = [(100 : ℚ), 0].length
    ∧ ([(100 : ℚ), 0].foldl (fun b p => updateAnalytics b (some p))
        { totalAttempts := 0, averageScore := some 0 }).averageScore =
      some ([(100 : ℚ), 0].sum / ([(100 : ℚ), 0].length : ℚ))
    ∧ ([(100 : ℚ), 0].foldl (fun b p => updateAnalytics b (some p))
        { totalAttempts := 0, averageScore := some 0 }).averageScore = some 50 := by
  have h := analytics_running_mean { totalAttempts := 0, averageScore := some 0 } 0
    [(100 : ℚ), 0] rfl rfl (by simp)
  refine ⟨⟨rfl, rfl, by simp⟩, h.1, h.2.1, ?_⟩
  rw [h.2.1]
  norm_num

/-- C8 amended: on every successful submission the route answers 201 with a
`data` object containing exactly `historyId` — `score`, `percentage` and
`passed` are not in the response; they are computed and persisted in the
created HistoryRecord instead. -/
theorem success_response_contains_only_historyId (s : SubmitState) (userId : Nat)
    (answers : List (Option String)) (timeTaken : Option ℚ) (now : ℚ) (quiz : Quiz)
    (hq : s.quiz = some quiz) :
    (postHistory s userId answers timeTaken now false).2 = PostResult.created ["historyId"]
    ∧ respKeys (postHistory s userId answers timeTaken now false).2 = ["historyId"]
    ∧ ¬ "score" ∈ respKeys (postHistory s userId answers timeTaken now false).2
    ∧ ¬ "percentage" ∈ respKeys (postHistory s userId answers timeTaken now false).2
    ∧ ¬ "passed" ∈ respKeys (postHistory s userId answers timeTaken now false).2
    ∧ ∃ record : HistoryRecord,
        (postHistory s userId answers timeTaken now false).1.histories =
          s.histories ++ [record]
        ∧ record.score = (gradeList quiz.questions answers 0).2.1
        ∧ record.percentage =
            percentageOf (gradeList quiz.questions answers 0).1 quiz.questions.length
        ∧ record.passed =
            passedOf (percentageOf (gradeList quiz.questions answers 0).1
              quiz.questions.length) quiz.passingScore := by
  have hres : (postHistory s userId answers timeTaken now false).2 =
      PostResult.created ["historyId"] := by
    simp [postHistory, hq]
  refine ⟨hres, by rw [hres]; rfl, by rw [hres]; decide, by rw [hres]; decide,
    by rw [hres]; decide, ?_⟩
  refine ⟨{ user := userId, quiz := quiz.qid,
            answers := (gradeList quiz.questions answers 0).2.2,
            score := (gradeList quiz.questions answers 0).2.1,
            percentage :=
              percentageOf (gradeList quiz.questions answers 0).1 quiz.questions.length,
            totalQuestions := quiz.questions.length,
            correctAnswers := (gradeList quiz.questions answers 0).1,
            incorrectAnswers :=
              quiz.questions.length - (gradeList quiz.questions answers 0).1,
            timeTaken := timeTaken,
            passed :=
              passedOf (percentageOf (gradeList quiz.questions answers 0).1
                quiz.questions.length) quiz.passingScore,
            completedAt := now }, ?_, rfl, rfl, rfl⟩
  simp [postHistory, hq]

/-- Witness for the amended C8 at a concrete successful submission. -/
theorem success_response_contains_only_historyId_witness :
    exState8.quiz = some exQuiz8
    ∧ ((postHistory exState8 9 [some "true"] (some 12) 2000 false).2 =
        PostResult.created ["historyId"]
      ∧ respKeys (postHistory exState8 9 [some "true"] (some 12) 2000 false).2 =
        ["historyId"]
      ∧ ¬ "score" ∈ respKeys (postHistory exState8 9 [some "true"] (some 12) 2000 false).2
      ∧ ¬ "percentage" ∈
          respKeys (postHistory exState8 9 [some "true"] (some 12) 2000 false).2
      ∧ ¬ "passed" ∈ respKeys (postHistory exState8 9 [some "true"] (some 12) 2000 false).2
      ∧ ∃ record : HistoryRecord,
          (postHistory exState8 9 [some "true"] (some 12) 2000 false).1.histories =
            exState8.histories ++ [record]
          ∧ record.score = (gradeList exQuiz8.questions [some "true"] 0).2.1
          ∧ record.percentage =
              percentageOf (gradeList exQuiz8.questions [some "true"] 0).1
                exQuiz8.questions.length
          ∧ record.passed =
              passedOf (percentageOf (gradeList exQuiz8.questions [some "true"] 0).1
                exQuiz8.questions.length) exQuiz8.passingScore) :=
  ⟨rfl, success_response_contains_only_historyId exState8 9 [some "true"] (some 12) 2000
    exQuiz8 rfl⟩

/-- The handler's explanation-field computation coincides with the spec-side
reading. -/
theorem explanationVisibility_eq_spec (quiz : Option Quiz) (timeTaken : Option ℚ)
    (completedAt : ℚ) :
    explanationVisibility quiz timeTaken completedAt =
      specExplanationFields quiz timeTaken completedAt := by
  rw [explanationVisibility.eq_def, specExplanationFields.eq_def]
  cases quiz with
  | none => rfl
  | some q =>
    obtain ⟨qid, qs, pass, tl?, an⟩ := q
    cases tl? with
    | none => rfl
    | some tl =>
      cases timeTaken with
      | none => rfl
      | some tt =>
        dsimp only
        by_cases h1 : 0 < tl ∧ 0 ≤ tt
        · by_cases h2 : 0 < tl * 60 - tt
          · rw [if_pos h1, if_pos h2, if_pos ⟨h1.1, h1.2, h2⟩]
          · rw [if_pos h1, if_neg h2, if_neg (by tauto)]
        · rw [if_neg h1, if_neg (by tauto)]

/-- C9: reading one history record computes, on the returned object only, the
two explanation fields exactly as specified — `canViewExplanations` is false
iff the quiz is present with a finite `timeLimit > 0`, the record's
`timeTaken` is finite and nonnegative, and `timeLimit * 60 - timeTaken > 0`,
in which case `explanationsUnlockAt` is `completedAt` plus the remaining
seconds, and otherwise the fields are `true` and null; the persisted record
is returned unmodified. -/
theorem history_read_explanation_fields (record : HistoryRecord) (quiz : Option Quiz) :
    getHistoryDetail record quiz =
      (record,
       { record := record,
         canViewExplanations :=
           (specExplanationFields quiz record.timeTaken record.completedAt).1,
         explanationsUnlockAt :=
           (specExplanationFields quiz record.timeTaken record.completedAt).2 })
    ∧ ((specExplanationFields quiz record.timeTaken record.completedAt).1 = false ↔
        ∃ (q : Quiz) (tl tt : ℚ), quiz = some q ∧ q.timeLimit = some tl
          ∧ record.timeTaken = some tt ∧ 0 < tl ∧ 0 ≤ tt ∧ 0 < tl * 60 - tt) := by
  constructor
  · rw [getHistoryDetail, explanationVisibility_eq_spec]
  · rw [specExplanationFields.eq_def]
    cases quiz with
    | none => simp
    | some q =>
      obtain ⟨qid, qs, pass, tl?, an⟩ := q
      cases tl? with
      | none => simp
      | some tl =>
        cases htt : record.timeTaken with
        | none => simp
        | some tt =>
          dsimp only
          by_cases h : 0 < tl ∧ 0 ≤ tt ∧ 0 < tl * 60 - tt
          · rw [if_pos h]
            constructor
            · intro _
              exact ⟨⟨qid, qs, pass, some tl, an⟩, tl, tt, rfl, rfl, rfl,
                h.1, h.2.1, h.2.2⟩
            · intro _
              rfl
          · rw [if_neg h]
            constructor
            · intro hx
              exact absurd hx (by decide)
            · rintro ⟨q', tl', tt', hq', htl', htt', hp1, hp2, hp3⟩
              injection hq' with hq'
              subst hq'
              simp only at htl'
              injection htl' with htl'
              subst htl'
              injection htt' with htt'
              subst htt'
              exact absurd ⟨hp1, hp2, hp3⟩ h
